import Mathlib

/-!
Verification of the volunteer-event coordination application.

The definitions below are shallow embeddings of the TypeScript source:
pure client-side computations (matching filters, availability editing,
localStorage join/unjoin, registration) become Lean functions on explicit
state, and the backend enrollment engine, whose Python implementation is
not part of the checked sources, is modelled from the written
specification where noted.
-/

/-- Availability slot of a volunteer profile: a (date, time) pair of
strings, as in the Availability type of the profile pages. -/
structure Availability where
  date : String
  time : String
deriving DecidableEq

namespace Matching

/-- Event record of the matching and notification pages (legacy Event
type: eventName, description, location, requiredSkills, urgency,
eventDate, eventTime, all client-visible strings). -/
structure Event where
  eventName : String
  description : String
  location : String
  requiredSkills : List String
  urgency : String
  eventDate : String
  eventTime : String
deriving DecidableEq

/-- Volunteer record of the matching page: fullName, skills, and an
availability list of (date, time) slots. -/
structure Volunteer where
  fullName : String
  skills : List String
  availability : List Availability
deriving DecidableEq

/-- Skill clause of the matching filter, from the matching page:
event.requiredSkills.some(skill => volunteer.skills.includes(skill)). -/
def skillMatch (v : Volunteer) (e : Event) : Bool :=
  e.requiredSkills.any (fun skill => v.skills.contains skill)

/-- Time clause of the matching filter, from the matching page:
volunteer.availability.some(avail => avail.date === event.eventDate
and avail.time === event.eventTime). -/
def timeMatch (v : Volunteer) (e : Event) : Bool :=
  v.availability.any (fun avail => avail.date == e.eventDate && avail.time == e.eventTime)

/-- Strict matched events, from the matching page: events.filter of the
conjunction of the skill clause and the time clause. -/
def matchedEvents (v : Volunteer) (events : List Event) : List Event :=
  events.filter (fun e => skillMatch v e && timeMatch v e)

/-- Recommended-view predicate, from the notifications page:
event.requiredSkills.some(skill => volunteer.skills.includes(skill)),
evaluated per event with no time condition. -/
def isMatched (skills : List String) (e : Event) : Bool :=
  e.requiredSkills.any (fun skill => skills.contains skill)

/-- Recommended matched events: the events of the catalog that satisfy
the notification-page skill-overlap predicate, in catalog order. -/
def recommendedEvents (skills : List String) (events : List Event) : List Event :=
  events.filter (fun e => isMatched skills e)

/-- Sample volunteer used to instantiate the theorems on concrete data. -/
def sampleVolunteer : Volunteer :=
  { fullName := "Alice"
    skills := ["Teaching"]
    availability := [{ date := "2025-12-25", time := "09:00" }] }

/-- Sample event whose required skills and schedule match the sample
volunteer. -/
def sampleEvent : Event :=
  { eventName := "Holiday Class"
    description := "Teach a class"
    location := "Hall"
    requiredSkills := ["Teaching"]
    urgency := "High"
    eventDate := "2025-12-25"
    eventTime := "09:00" }

/-- Sample event with an empty required-skills list, matching the sample
volunteer on time but not on skills as the filter is coded. -/
def noSkillsEvent : Event :=
  { eventName := "Park Cleanup"
    description := "Open cleanup"
    location := "Park"
    requiredSkills := []
    urgency := "Low"
    eventDate := "2025-12-25"
    eventTime := "09:00" }

end Matching

namespace ProfileForm

/-- Availability add operation of the profile page: when both form
fields are non-empty (JS truthiness of newDate and newTime) and no
stored slot already has the same date and time, the pair is appended at
the end; otherwise the list is returned unchanged. -/
def addAvailability (availability : List Availability) (newDate newTime : String) :
    List Availability :=
  if newDate ≠ "" ∧ newTime ≠ "" then
    if availability.any (fun a => a.date == newDate && a.time == newTime) then
      availability
    else
      availability ++ [{ date := newDate, time := newTime }]
  else
    availability

/-- Availability remove operation of the profile page: keeps exactly the
slots whose (date, time) differs from the removed pair. -/
def removeAvailability (availability : List Availability) (date time : String) :
    List Availability :=
  availability.filter (fun a => !(a.date == date && a.time == time))

/-- Key view of an availability list: the sequence of its (date, time)
pairs. -/
def slotKeys (l : List Availability) : List (String × String) :=
  l.map (fun a => (a.date, a.time))

/-- The no-duplicates invariant of the availability list: no two entries
share the same (date, time) pair. -/
def noDuplicateSlots (l : List Availability) : Prop :=
  (slotKeys l).Nodup

end ProfileForm

namespace HistoryLocal

/-- Participation record of the localStorage history page: the joined
event display fields plus a status string, created as Pending on join. -/
structure Participation where
  eventName : String
  description : String
  location : String
  requiredSkills : List String
  urgency : String
  eventDate : String
  eventTime : String
  status : String
deriving DecidableEq

/-- New participation entry built by the join handler from an event,
with status Pending. -/
def newEntry (e : Matching.Event) : Participation :=
  { eventName := e.eventName
    description := e.description
    location := e.location
    requiredSkills := e.requiredSkills
    urgency := e.urgency
    eventDate := e.eventDate
    eventTime := e.eventTime
    status := "Pending" }

/-- Alert text of the duplicate-join branch of the join handler. -/
def alreadyJoinedMsg : String := "You already joined this event."

/-- Alert text of the successful-join branch of the join handler. -/
def joinedMsg (e : Matching.Event) : String := "You joined " ++ e.eventName

/-- Alert text of the unjoin handler, emitted unconditionally. -/
def unjoinedMsg (e : Matching.Event) : String := "You unjoined " ++ e.eventName

/-- Join handler of the localStorage history page, logged-in path: if
the stored participation list already holds a record with the same
eventName, alert the duplicate message and leave the list unchanged;
otherwise append a new Pending entry. The store is keyed per volunteer,
so the list is the current volunteer participation. -/
def handleJoin (participation : List Participation) (e : Matching.Event) :
    String × List Participation :=
  if participation.any (fun p => p.eventName == e.eventName) then
    (alreadyJoinedMsg, participation)
  else
    (joinedMsg e, participation ++ [newEntry e])

/-- Unjoin handler of the localStorage history page, logged-in path: it
filters out every record with the matching eventName and alerts the
success message unconditionally; there is no failure branch. -/
def handleUnjoin (participation : List Participation) (e : Matching.Event) :
    String × List Participation :=
  (unjoinedMsg e, participation.filter (fun p => !(p.eventName == e.eventName)))

end HistoryLocal

namespace RegisterPage

/-- Outcome of the registration handler, one constructor per alert
branch of the source. -/
inductive RegisterResult where
  | missingFields
  | alreadyRegistered
  | success
deriving DecidableEq

/-- Registration handler of the register page: the users store persisted
under the users localStorage key is a keyed object, modelled as an
association list from email to password in insertion order. An empty
email or password is rejected first; an email already present as a key
is reported as already registered with the store unchanged; otherwise
exactly the one new entry is inserted. -/
def handleRegister (users : List (String × String)) (email password : String) :
    RegisterResult × List (String × String) :=
  if email = "" ∨ password = "" then
    (RegisterResult.missingFields, users)
  else if (users.lookup email).isSome then
    (RegisterResult.alreadyRegistered, users)
  else
    (RegisterResult.success, users ++ [(email, password)])

end RegisterPage

namespace Engine

/-- Event resource of the API client (the Event interface of the api
service): identity, display fields, schedule, capacity and status;
description, requirements, required_skills and updated_at are optional
there. -/
structure ApiEvent where
  id : Nat
  title : String
  description : Option String
  category : String
  event_date : String
  start_time : String
  end_time : String
  location : String
  capacity : Nat
  requirements : Option String
  required_skills : Option (List String)
  urgency : String
  status : String
  created_at : String
  updated_at : Option String
deriving DecidableEq

/-- Modelled from the spec: the status enumeration pending, completed,
cancelled, no_show of a ParticipationRecord; the backend service that
owns it is not among the checked sources. -/
inductive ParticipationStatus where
  | pending
  | completed
  | cancelled
  | noShow
deriving DecidableEq

/-- Modelled from the spec: a ParticipationRecord of the enrollment
ledger, identified by the (volunteer_id, event_id) pair and carrying a
status; the backend service that owns it is not among the checked
sources. -/
structure Record where
  volunteer_id : String
  event_id : Nat
  status : ParticipationStatus
deriving DecidableEq

/-- Modelled from the spec: the typed join failures AlreadyEnrolled,
EventNotJoinable and CapacityExceeded of the error taxonomy. -/
inductive JoinError where
  | alreadyEnrolled
  | eventNotJoinable
  | capacityExceeded
deriving DecidableEq

/-- Modelled from the spec: a record counts toward capacity when its
status is pending or completed, the active statuses of the capacity
rule. -/
def countsTowardCapacity (r : Record) : Bool :=
  r.status == ParticipationStatus.pending || r.status == ParticipationStatus.completed

/-- Modelled from the spec: the number of active (pending or completed)
records of an event in the ledger. -/
def activeCount (ledger : List Record) (eid : Nat) : Nat :=
  (ledger.filter (fun r => r.event_id == eid && countsTowardCapacity r)).length

/-- Modelled from the spec: whether the volunteer holds an active
(non-cancelled) record for the event, the AlreadyEnrolled condition. -/
def hasActive (ledger : List Record) (vid : String) (eid : Nat) : Bool :=
  ledger.any (fun r =>
    r.volunteer_id == vid && r.event_id == eid &&
      !(r.status == ParticipationStatus.cancelled))

/-- Modelled from the spec: the join admission decision of the
enrollment engine, whose backend implementation is not among the checked
sources (the client only calls the participate endpoint). A non-open
event is rejected with EventNotJoinable, a volunteer holding an active
record with AlreadyEnrolled, and a full event with CapacityExceeded;
otherwise a pending record is appended. The spec fixes the three failure
conditions but no precedence among them; the status check comes first
here, mirroring the client page, which disables the join button for
non-open events before any request is made. -/
def join (ledger : List Record) (ev : ApiEvent) (vid : String) :
    Except JoinError (List Record) :=
  if ev.status ≠ "open" then
    Except.error JoinError.eventNotJoinable
  else if hasActive ledger vid ev.id then
    Except.error JoinError.alreadyEnrolled
  else if ev.capacity ≤ activeCount ledger ev.id then
    Except.error JoinError.capacityExceeded
  else
    Except.ok
      (ledger ++
        [{ volunteer_id := vid
           event_id := ev.id
           status := ParticipationStatus.pending }])

/-- Join-button guard of the available-events page: the button is
disabled exactly when event.status differs from open. -/
def joinButtonDisabled (ev : ApiEvent) : Bool :=
  ev.status != "open"

/-- Volunteer statistics resource of the API client (the VolunteerStats
interface of the api service), with the completion rate as a rational. -/
structure VolunteerStats where
  volunteer_id : String
  total_events : Nat
  completed_events : Nat
  pending_events : Nat
  cancelled_events : Nat
  no_show_events : Nat
  completion_rate : ℚ
deriving DecidableEq

/-- Modelled from the spec: the per-status count of the records of a
volunteer. -/
def countStatus (records : List Record) (s : ParticipationStatus) : Nat :=
  (records.filter (fun r => r.status == s)).length

/-- Modelled from the spec: computeStats over the participation records
of one volunteer, whose backend implementation is not among the checked
sources: the total is the record count, the four per-status counts are
taken over the same records, and the completion rate is completed
divided by total times 100, defined as 0 when the total is 0. -/
def computeStats (vid : String) (records : List Record) : VolunteerStats :=
  { volunteer_id := vid
    total_events := records.length
    completed_events := countStatus records ParticipationStatus.completed
    pending_events := countStatus records ParticipationStatus.pending
    cancelled_events := countStatus records ParticipationStatus.cancelled
    no_show_events := countStatus records ParticipationStatus.noShow
    completion_rate :=
      if records.length = 0 then 0
      else ((countStatus records ParticipationStatus.completed : ℚ) /
        (records.length : ℚ)) * 100 }

end Engine

/-- Sample volunteer identifier A used by the concrete witnesses. -/
def volA : String := "A"

/-- Sample volunteer identifier B used by the concrete witnesses. -/
def volB : String := "B"

/-- Sample open event of capacity one used by the concrete witnesses. -/
def fullEvent : Engine.ApiEvent :=
  { id := 1
    title := "Beach Cleanup"
    description := none
    category := "outdoors"
    event_date := "2025-12-25"
    start_time := "09:00"
    end_time := "12:00"
    location := "Beach"
    capacity := 1
    requirements := none
    required_skills := none
    urgency := "High"
    status := "open"
    created_at := "2025-01-01"
    updated_at := none }

/-- Sample closed event used by the concrete witnesses. -/
def closedEvent : Engine.ApiEvent :=
  { id := 2
    title := "Food Drive"
    description := none
    category := "community"
    event_date := "2025-12-26"
    start_time := "10:00"
    end_time := "14:00"
    location := "Center"
    capacity := 5
    requirements := none
    required_skills := none
    urgency := "Low"
    status := "closed"
    created_at := "2025-01-01"
    updated_at := none }

/-- Ledger holding the single pending record of volunteer A on the
sample full event. -/
def ledgerA : List Engine.Record :=
  [{ volunteer_id := volA, event_id := 1, status := Engine.ParticipationStatus.pending }]

/-- Sample record list used by the statistics witness: one completed and
one pending record. -/
def sampleRecords : List Engine.Record :=
  [{ volunteer_id := volA, event_id := 1, status := Engine.ParticipationStatus.completed },
    { volunteer_id := volA, event_id := 2, status := Engine.ParticipationStatus.pending }]

/-- Sample email used by the registration witness. -/
def aliceEmail : String := "alice@example.com"

/-- Sample password used by the registration witness. -/
def alicePassword : String := "hunter2"

/-- Sample second email used by the registration witness. -/
def bobEmail : String := "bob@example.com"

/-- Sample users store already holding the sample email. -/
def usersA : List (String × String) := [(aliceEmail, alicePassword)]

/-- Sample date string used by the concrete witnesses. -/
def sampleDate : String := "2025-12-25"

/-- Sample time string used by the concrete witnesses. -/
def sampleTime : String := "09:00"

open Matching

/-- Claim C1: an event is in the strict matched output iff it is in the
catalog, its required skills share at least one skill with the profile,
and the profile availability holds the exact (eventDate, eventTime)
pair; membership of each event depends on that event and the profile
only, and the output is a sublist of the catalog, hence preserves
catalog order. -/
theorem matchedEvents_mem_iff_and_order :
    (∀ (v : Volunteer) (events : List Event) (e : Event),
        e ∈ matchedEvents v events ↔
          e ∈ events ∧
            (∃ s, s ∈ e.requiredSkills ∧ s ∈ v.skills) ∧
            (∃ a, a ∈ v.availability ∧ a.date = e.eventDate ∧ a.time = e.eventTime)) ∧
    (∀ (v : Volunteer) (events : List Event), (matchedEvents v events).Sublist events) := by
  constructor
  · intro v events e
    simp [matchedEvents, skillMatch, timeMatch, List.mem_filter, List.any_eq_true,
      List.elem_iff]
  · intro v events
    exact List.filter_sublist events

/-- Claim C3: every event selected by the strict view is also selected
by the recommended view. -/
theorem matched_subset_recommended (v : Volunteer) (events : List Event) (e : Event)
    (h : e ∈ matchedEvents v events) : e ∈ recommendedEvents v.skills events := by
  rw [matchedEvents, List.mem_filter] at h
  rw [recommendedEvents, List.mem_filter]
  refine ⟨h.1, ?_⟩
  have hb := h.2
  rw [Bool.and_eq_true] at hb
  simpa [isMatched, skillMatch] using hb.1

/-- Witness for claim C3 at the sample volunteer and the sample event. -/
theorem matched_subset_recommended_witness :
    sampleEvent ∈ matchedEvents sampleVolunteer [sampleEvent] ∧
      sampleEvent ∈ recommendedEvents sampleVolunteer.skills [sampleEvent] :=
  ⟨by decide, matched_subset_recommended sampleVolunteer [sampleEvent] sampleEvent (by decide)⟩

/-- Claim C4 counterexample: an event with an empty required-skills list
whose date and time exactly match the sample volunteer availability is
nevertheless excluded from both the strict and the recommended view, so
the exclusion is purely on skill grounds: the existential skill test
over an empty list is false. -/
theorem emptySkills_excluded_counterexample :
    noSkillsEvent.requiredSkills = [] ∧
      timeMatch sampleVolunteer noSkillsEvent = true ∧
      noSkillsEvent ∉ matchedEvents sampleVolunteer [noSkillsEvent] ∧
      noSkillsEvent ∉ recommendedEvents sampleVolunteer.skills [noSkillsEvent] := by
  decide

/-- Claim C4 amended: for every volunteer profile, an event whose
required-skills list is empty never satisfies the skill clause as coded,
so it is excluded from both the strict and the recommended match views
for every catalog, regardless of availability. -/
theorem emptySkills_never_matches (v : Volunteer) (e : Event)
    (h : e.requiredSkills = []) :
    skillMatch v e = false ∧ isMatched v.skills e = false ∧
      ∀ events : List Event,
        e ∉ matchedEvents v events ∧ e ∉ recommendedEvents v.skills events := by
  refine ⟨by simp [skillMatch, h], by simp [isMatched, h], ?_⟩
  intro events
  constructor
  · intro hmem
    rw [matchedEvents, List.mem_filter] at hmem
    have := hmem.2
    simp [skillMatch, h] at this
  · intro hmem
    rw [recommendedEvents, List.mem_filter] at hmem
    have := hmem.2
    simp [isMatched, h] at this

/-- Witness for the amended claim C4 at the sample volunteer and the
empty-required-skills event. -/
theorem emptySkills_never_matches_witness :
    skillMatch sampleVolunteer noSkillsEvent = false ∧
      isMatched sampleVolunteer.skills noSkillsEvent = false ∧
      ∀ events : List Event,
        noSkillsEvent ∉ matchedEvents sampleVolunteer events ∧
          noSkillsEvent ∉ recommendedEvents sampleVolunteer.skills events :=
  emptySkills_never_matches sampleVolunteer noSkillsEvent (by decide)

/-- Claim C9: adding an availability slot whose (date, time) pair is
already stored leaves the list unchanged; adding a fresh non-empty pair
appends exactly that one entry; and the no-duplicates invariant is
preserved by both the add and the remove operation. -/
theorem availability_slot_invariants :
    (∀ (l : List Availability) (d t : String),
        (∃ a, a ∈ l ∧ a.date = d ∧ a.time = t) →
        ProfileForm.addAvailability l d t = l) ∧
    (∀ (l : List Availability) (d t : String), d ≠ "" → t ≠ "" →
        (¬ ∃ a, a ∈ l ∧ a.date = d ∧ a.time = t) →
        ProfileForm.addAvailability l d t = l ++ [{ date := d, time := t }]) ∧
    (∀ (l : List Availability) (d t : String),
        ProfileForm.noDuplicateSlots l →
        ProfileForm.noDuplicateSlots (ProfileForm.addAvailability l d t)) ∧
    (∀ (l : List Availability) (d t : String),
        ProfileForm.noDuplicateSlots l →
        ProfileForm.noDuplicateSlots (ProfileForm.removeAvailability l d t)) := by
  refine ⟨?_, ?_, ?_, ?_⟩
  · intro l d t h
    unfold ProfileForm.addAvailability
    by_cases hg : d ≠ "" ∧ t ≠ ""
    · rw [if_pos hg]
      have hany : l.any (fun a => a.date == d && a.time == t) = true := by
        rw [List.any_eq_true]
        obtain ⟨a, ha, hd, ht⟩ := h
        exact ⟨a, ha, by simp [hd, ht]⟩
      rw [if_pos hany]
    · rw [if_neg hg]
  · intro l d t hd ht h
    unfold ProfileForm.addAvailability
    rw [if_pos ⟨hd, ht⟩]
    have hany : ¬ l.any (fun a => a.date == d && a.time == t) = true := by
      rw [List.any_eq_true]
      rintro ⟨a, ha, hp⟩
      exact h ⟨a, ha, by simpa using hp⟩
    rw [if_neg hany]
  · intro l d t hnd
    unfold ProfileForm.addAvailability
    by_cases hg : d ≠ "" ∧ t ≠ ""
    · rw [if_pos hg]
      by_cases hany : l.any (fun a => a.date == d && a.time == t) = true
      · rw [if_pos hany]
        exact hnd
      · rw [if_neg hany]
        unfold ProfileForm.noDuplicateSlots ProfileForm.slotKeys at hnd ⊢
        rw [List.map_append, List.nodup_append]
        refine ⟨hnd, by simp, ?_⟩
        intro p hp hq
        simp only [List.map_cons, List.map_nil, List.mem_singleton] at hq
        subst hq
        rw [List.mem_map] at hp
        obtain ⟨a, ha, hkey⟩ := hp
        apply hany
        rw [List.any_eq_true]
        refine ⟨a, ha, ?_⟩
        have h1 : a.date = d := congrArg Prod.fst hkey
        have h2 : a.time = t := congrArg Prod.snd hkey
        simp [h1, h2]
    · rw [if_neg hg]
      exact hnd
  · intro l d t hnd
    unfold ProfileForm.noDuplicateSlots ProfileForm.slotKeys at hnd ⊢
    exact hnd.sublist (List.Sublist.map _ (List.filter_sublist l))

/-- Witness for claim C9: adding a fresh slot to the empty list appends
exactly one entry, and both operations preserve the no-duplicates
invariant on a concrete singleton list. -/
theorem availability_slot_invariants_witness :
    ProfileForm.addAvailability [] sampleDate sampleTime =
        [{ date := sampleDate, time := sampleTime }] ∧
      ProfileForm.noDuplicateSlots
        (ProfileForm.addAvailability [{ date := sampleDate, time := sampleTime }]
          sampleDate sampleTime) ∧
      ProfileForm.noDuplicateSlots
        (ProfileForm.removeAvailability [{ date := sampleDate, time := sampleTime }]
          sampleDate sampleTime) :=
  ⟨availability_slot_invariants.2.1 [] sampleDate sampleTime (by decide) (by decide)
      (by simp),
    availability_slot_invariants.2.2.1 [{ date := sampleDate, time := sampleTime }]
      sampleDate sampleTime
      (by unfold ProfileForm.noDuplicateSlots ProfileForm.slotKeys; decide),
    availability_slot_invariants.2.2.2 [{ date := sampleDate, time := sampleTime }]
      sampleDate sampleTime
      (by unfold ProfileForm.noDuplicateSlots ProfileForm.slotKeys; decide)⟩

/-- Claim C5: when the stored participation list already holds a record
with the requested eventName, the join handler reports the duplicate
alert and returns the list completely unchanged. -/
theorem handleJoin_already_enrolled (participation : List HistoryLocal.Participation)
    (e : Event) (h : ∃ p, p ∈ participation ∧ p.eventName = e.eventName) :
    HistoryLocal.handleJoin participation e = (HistoryLocal.alreadyJoinedMsg, participation) := by
  unfold HistoryLocal.handleJoin
  have hany : participation.any (fun p => p.eventName == e.eventName) = true := by
    rw [List.any_eq_true]
    obtain ⟨p, hp, hname⟩ := h
    exact ⟨p, hp, by simp [hname]⟩
  rw [if_pos hany]

/-- Witness for claim C5: a second join of the sample event against a
list already holding its Pending record fails with the duplicate alert
and leaves the list unchanged. -/
theorem handleJoin_already_enrolled_witness :
    HistoryLocal.handleJoin [HistoryLocal.newEntry sampleEvent] sampleEvent =
      (HistoryLocal.alreadyJoinedMsg, [HistoryLocal.newEntry sampleEvent]) :=
  handleJoin_already_enrolled [HistoryLocal.newEntry sampleEvent] sampleEvent
    ⟨HistoryLocal.newEntry sampleEvent, by decide, by decide⟩

/-- Claim C6 counterexample: after a successful unjoin removes the only
record of the sample event, a second unjoin of the same pair returns the
unconditional success alert with the list unchanged; the handler has no
failure outcome, so the claimed NotEnrolled failure never occurs. -/
theorem handleUnjoin_second_call_counterexample :
    (HistoryLocal.handleUnjoin [HistoryLocal.newEntry sampleEvent] sampleEvent).2 = [] ∧
      HistoryLocal.handleUnjoin [] sampleEvent =
        (HistoryLocal.unjoinedMsg sampleEvent, []) := by
  decide

/-- Claim C6 amended: when no stored record has the requested eventName,
a further unjoin reports the unconditional success alert, raises no
error, and leaves the stored participation list unchanged; the code has
no NotEnrolled outcome. -/
theorem handleUnjoin_no_record_unchanged (participation : List HistoryLocal.Participation)
    (e : Event) (h : ∀ p ∈ participation, p.eventName ≠ e.eventName) :
    HistoryLocal.handleUnjoin participation e = (HistoryLocal.unjoinedMsg e, participation) := by
  unfold HistoryLocal.handleUnjoin
  have hfil : participation.filter (fun p => !(p.eventName == e.eventName)) = participation := by
    rw [List.filter_eq_self]
    intro p hp
    simpa using h p hp
  rw [hfil]

/-- Witness for the amended claim C6 at the empty participation list and
the sample event. -/
theorem handleUnjoin_no_record_unchanged_witness :
    HistoryLocal.handleUnjoin [] sampleEvent = (HistoryLocal.unjoinedMsg sampleEvent, []) :=
  handleUnjoin_no_record_unchanged [] sampleEvent (by simp)

/-- Helper: the length of a record list is the sum of its four
per-status counts, since every status is one of the four. -/
theorem length_eq_sum_countStatus (records : List Engine.Record) :
    records.length =
      Engine.countStatus records Engine.ParticipationStatus.completed +
        Engine.countStatus records Engine.ParticipationStatus.pending +
        Engine.countStatus records Engine.ParticipationStatus.cancelled +
        Engine.countStatus records Engine.ParticipationStatus.noShow := by
  induction records with
  | nil => rfl
  | cons r rs ih =>
    unfold Engine.countStatus at ih ⊢
    cases h : r.status <;> simp [List.filter_cons, h] <;> omega

/-- Claim C8: for every volunteer record set, computeStats returns a
total equal to the sum of the completed, pending, cancelled and no-show
counts; the completion rate is 0 when the total is 0, and otherwise
satisfies rate times total equals completed times 100, so the division
is never performed on zero. -/
theorem computeStats_round_trip (vid : String) (records : List Engine.Record) :
    (Engine.computeStats vid records).total_events =
        (Engine.computeStats vid records).completed_events +
          (Engine.computeStats vid records).pending_events +
          (Engine.computeStats vid records).cancelled_events +
          (Engine.computeStats vid records).no_show_events ∧
      ((Engine.computeStats vid records).total_events = 0 →
        (Engine.computeStats vid records).completion_rate = 0) ∧
      ((Engine.computeStats vid records).total_events ≠ 0 →
        (Engine.computeStats vid records).completion_rate *
            ((Engine.computeStats vid records).total_events : ℚ) =
          ((Engine.computeStats vid records).completed_events : ℚ) * 100) := by
  refine ⟨?_, ?_, ?_⟩
  · simpa [Engine.computeStats] using length_eq_sum_countStatus records
  · intro h
    simp only [Engine.computeStats] at h ⊢
    rw [if_pos h]
  · intro h
    simp only [Engine.computeStats] at h ⊢
    rw [if_neg h]
    have hq : (records.length : ℚ) ≠ 0 := by exact_mod_cast h
    field_simp

/-- Witness for claim C8 on a concrete two-record set with one completed
and one pending record. -/
theorem computeStats_round_trip_witness :
    (Engine.computeStats volA sampleRecords).total_events =
        (Engine.computeStats volA sampleRecords).completed_events +
          (Engine.computeStats volA sampleRecords).pending_events +
          (Engine.computeStats volA sampleRecords).cancelled_events +
          (Engine.computeStats volA sampleRecords).no_show_events ∧
      (Engine.computeStats volA sampleRecords).completion_rate *
          ((Engine.computeStats volA sampleRecords).total_events : ℚ) =
        ((Engine.computeStats volA sampleRecords).completed_events : ℚ) * 100 :=
  ⟨(computeStats_round_trip volA sampleRecords).1,
    (computeStats_round_trip volA sampleRecords).2.2 (by decide)⟩

/-- Claim C7: a join request against an event whose status is not open
fails with EventNotJoinable for every volunteer and every ledger,
creating no record; moreover the client join button is disabled for such
an event. -/
theorem join_event_not_joinable (ledger : List Engine.Record) (ev : Engine.ApiEvent)
    (vid : String) (h : ev.status ≠ "open") :
    Engine.join ledger ev vid = Except.error Engine.JoinError.eventNotJoinable ∧
      Engine.joinButtonDisabled ev = true := by
  constructor
  · unfold Engine.join
    rw [if_pos h]
  · unfold Engine.joinButtonDisabled
    simpa [bne_iff_ne] using h

/-- Witness for claim C7 at the sample closed event. -/
theorem join_event_not_joinable_witness :
    Engine.join [] closedEvent volB = Except.error Engine.JoinError.eventNotJoinable ∧
      Engine.joinButtonDisabled closedEvent = true :=
  join_event_not_joinable [] closedEvent volB (by decide)

/-- Claim C2: a join by a volunteer without an active record against an
open event whose active count has reached capacity fails with
CapacityExceeded and creates no record, and every successful join keeps
the active count of the event at most its capacity, so the bound is an
invariant preserved by every join. -/
theorem join_capacity_invariant :
    (∀ (ledger : List Engine.Record) (ev : Engine.ApiEvent) (vid : String),
        ev.status = "open" →
        Engine.hasActive ledger vid ev.id = false →
        ev.capacity ≤ Engine.activeCount ledger ev.id →
        Engine.join ledger ev vid = Except.error Engine.JoinError.capacityExceeded) ∧
      (∀ (ledger : List Engine.Record) (ev : Engine.ApiEvent) (vid : String)
          (result : List Engine.Record),
          Engine.join ledger ev vid = Except.ok result →
          Engine.activeCount result ev.id ≤ ev.capacity) := by
  constructor
  · intro ledger ev vid hopen hact hfull
    unfold Engine.join
    rw [if_neg (by simp [hopen]), if_neg (by simp [hact]), if_pos hfull]
  · intro ledger ev vid result hok
    unfold Engine.join at hok
    split at hok
    · exact absurd hok (by simp)
    · split at hok
      · exact absurd hok (by simp)
      · split at hok
        · exact absurd hok (by simp)
        · rename_i hcap
          injection hok with hres
          subst hres
          have hcount : Engine.activeCount
              (ledger ++
                [{ volunteer_id := vid
                   event_id := ev.id
                   status := Engine.ParticipationStatus.pending }]) ev.id =
              Engine.activeCount ledger ev.id + 1 := by
            unfold Engine.activeCount
            rw [List.filter_append, List.length_append]
            simp [Engine.countsTowardCapacity]
          rw [hcount]
          omega

/-- Witness for claim C2: on the capacity-one event already filled by
the pending record of volunteer A, a join by volunteer B fails with
CapacityExceeded; and after the successful join of A into the empty
ledger the active count respects capacity. -/
theorem join_capacity_invariant_witness :
    Engine.join ledgerA fullEvent volB = Except.error Engine.JoinError.capacityExceeded ∧
      Engine.activeCount ledgerA fullEvent.id ≤ fullEvent.capacity :=
  ⟨join_capacity_invariant.1 ledgerA fullEvent volB (by decide) (by decide) (by decide),
    join_capacity_invariant.2 [] fullEvent volA ledgerA (by rfl)⟩

/-- Helper: looking up the inserted key after appending a fresh entry
yields the inserted value, when the key was absent. -/
theorem lookup_append_self (users : List (String × String)) (e p : String)
    (h : users.lookup e = none) : (users ++ [(e, p)]).lookup e = some p := by
  induction users with
  | nil => simp [List.lookup]
  | cons u us ih =>
    obtain ⟨k, v⟩ := u
    cases hk : (e == k) with
    | true => simp [List.lookup, hk] at h
    | false =>
      simp only [List.cons_append]
      simp only [List.lookup, hk] at h ⊢
      exact ih h

/-- Helper: appending an entry for one key leaves the lookup of every
other key unchanged. -/
theorem lookup_append_other (users : List (String × String)) (e p k : String)
    (h : k ≠ e) : (users ++ [(e, p)]).lookup k = users.lookup k := by
  induction users with
  | nil =>
    have hke : (k == e) = false := beq_eq_false_iff_ne.mpr h
    simp [List.lookup, hke]
  | cons u us ih =>
    obtain ⟨k1, v1⟩ := u
    cases hk : (k == k1) with
    | true => simp [List.cons_append, List.lookup, hk]
    | false =>
      simp [List.cons_append, List.lookup, hk]
      exact ih

/-- Claim C10: registration is atomic on the user store: with a
non-empty email and password, registering an email already present as a
key reports the duplicate and leaves the store unchanged, and
registering a fresh email appends exactly that one entry, makes it
retrievable, and leaves the lookup of every other key unchanged. -/
theorem handleRegister_atomic :
    (∀ (users : List (String × String)) (email password q : String),
        email ≠ "" → password ≠ "" → users.lookup email = some q →
        RegisterPage.handleRegister users email password =
          (RegisterPage.RegisterResult.alreadyRegistered, users)) ∧
      (∀ (users : List (String × String)) (email password : String),
          email ≠ "" → password ≠ "" → users.lookup email = none →
          RegisterPage.handleRegister users email password =
              (RegisterPage.RegisterResult.success, users ++ [(email, password)]) ∧
            (users ++ [(email, password)]).lookup email = some password ∧
            ∀ k : String, k ≠ email →
              (users ++ [(email, password)]).lookup k = users.lookup k) := by
  constructor
  · intro users email password q he hp hq
    unfold RegisterPage.handleRegister
    rw [if_neg (by simp [he, hp]), if_pos (by simp [hq])]
  · intro users email password he hp hnone
    refine ⟨?_, lookup_append_self users email password hnone,
      fun k hk => lookup_append_other users email password k hk⟩
    unfold RegisterPage.handleRegister
    rw [if_neg (by simp [he, hp]), if_neg (by simp [hnone])]

/-- Witness for claim C10: re-registering the stored sample email
reports the duplicate with the store unchanged; registering it into the
empty store appends exactly the one entry, and the lookup of a different
email is unchanged. -/
theorem handleRegister_atomic_witness :
    RegisterPage.handleRegister usersA aliceEmail alicePassword =
        (RegisterPage.RegisterResult.alreadyRegistered, usersA) ∧
      RegisterPage.handleRegister [] aliceEmail alicePassword =
        (RegisterPage.RegisterResult.success, [] ++ [(aliceEmail, alicePassword)]) ∧
      (([] : List (String × String)) ++ [(aliceEmail, alicePassword)]).lookup bobEmail =
        ([] : List (String × String)).lookup bobEmail :=
  ⟨handleRegister_atomic.1 usersA aliceEmail alicePassword alicePassword
      (by decide) (by decide) (by decide),
    (handleRegister_atomic.2 [] aliceEmail alicePassword
        (by decide) (by decide) (by decide)).1,
    (handleRegister_atomic.2 [] aliceEmail alicePassword
        (by decide) (by decide) (by decide)).2.2 bobEmail (by decide)⟩
